import Mathlib

/-!
Verification of the voidium-connect VS Code extension (a Pterodactyl panel
file-system bridge).  The definitions below are shallow embeddings of the
TypeScript source: `src/fsProvider.ts` (the remote filesystem bridge),
`src/state.ts` (connection state), `src/config.ts`, the tree data provider
(directory reveal engine) and the status bar controller.  Network calls are
modelled by passing their outcome (HTTP status / parsed JSON / thrown error)
as explicit arguments; timers are modelled as explicit events.
-/

namespace Voidium

/-- Error kinds of `vscode.FileSystemError` used by the bridge. -/
inductive FsError where
  | NoPermissions
  | FileNotFound
  | Unavailable (msg : String)
  | FileIsADirectory
  | FileExists
deriving DecidableEq, Repr

/-- An HTTP response as seen by `forConnection`: its status code and, for the
422 branch, the remote-provided `errors[0].detail` field of its JSON body. -/
structure HttpResponse where
  status : Nat
  errorDetail : Option String
deriving DecidableEq, Repr

/-- `Response.ok` of the fetch API: status in the range 200-299. -/
def responseOk (status : Nat) : Bool :=
  200 ≤ status && status ≤ 299

/-- Shallow embedding of `PterodactylFileSystemProvider.forConnection`
(fsProvider.ts lines 58-90).  The first component counts invocations of the
registered `onAuthenticationFailed` callback; `authenticateClicked` is the
user's answer to the warning message shown on a 401 (the callback runs only
when the user clicks "Authenticate").  The second component is the outcome:
`ok` when the function returns normally, `error` when it throws. -/
def forConnection (authenticateClicked : Bool) (resp : HttpResponse) :
    Nat × Except FsError Unit :=
  match resp.status with
  | 401 => ((if authenticateClicked then 1 else 0), Except.error FsError.NoPermissions)
  | 403 => (0, Except.error FsError.NoPermissions)
  | 404 => (0, Except.error FsError.FileNotFound)
  | 422 => (0, Except.error (FsError.Unavailable
      (resp.errorDetail.getD "Request could not be completed.")))
  | 429 => (0, Except.error (FsError.Unavailable
      "You have been ratelimited by the Pterodactyl panel."))
  | 500 => (0, Except.error (FsError.Unavailable
      "The server (or a proxy) was unable to handle the request. Check Output -> Pterodactyl for more information."))
  | s => if responseOk s then (0, Except.ok ())
         else (0, Except.error (FsError.Unavailable ("Unknown error: " ++ toString s)))

/-- `vscode.FileType.File` bit flag. -/
def fileTypeFile : Nat := 1

/-- `vscode.FileType.Directory` bit flag. -/
def fileTypeDirectory : Nat := 2

/-- `vscode.FileType.SymbolicLink` bit flag. -/
def fileTypeSymbolicLink : Nat := 64

/-- `PterodactylFileSystemProvider.getFileType` (fsProvider.ts lines 391-402). -/
def getFileType (isFile isSymlink : Bool) : Nat :=
  if isFile && isSymlink then fileTypeFile ||| fileTypeSymbolicLink
  else if isFile then fileTypeFile
  else if isSymlink then fileTypeDirectory ||| fileTypeSymbolicLink
  else fileTypeDirectory

/-- `vscode.FileStat` as built by `stat`.  `created_at` / `modified_at` are
parsed by `new Date(...).getTime()`; the parsed millisecond values are carried
directly.  `readonlyPerm` is true when the `permissions` field is set to
`vscode.FilePermission.Readonly`. -/
structure FileStat where
  ctime : Int
  mtime : Int
  readonlyPerm : Bool
  size : Nat
  type : Nat
deriving DecidableEq, Repr

/-- Trace of one `writeFile` call: how many empty pre-create uploads and real
content uploads were issued, and the overall outcome. -/
structure WriteTrace where
  preCreateCalls : Nat
  uploadCalls : Nat
  result : Except FsError Unit
deriving Repr

/-- Shallow embedding of `PterodactylFileSystemProvider.writeFile`
(fsProvider.ts lines 337-381).  `statResult` is the outcome of the initial
`this.stat(uri)` probe; `uploadResult` the outcome of funnelling the real
content upload's response through `forConnection`.  The body mirrors the
source exactly: the `try` block sets `fileExists := true` after a successful
stat and then may throw `FileIsADirectory` / `FileExists`; the bare `catch`
catches every throw from the `try` block (including those two) and rethrows
`FileNotFound` only when `create` is false. -/
def writeFile (statResult : Except FsError FileStat) (create overwrite : Bool)
    (uploadResult : Except FsError Unit) : WriteTrace :=
  let fileExists : Bool := statResult.isOk
  let thrown : Option FsError :=
    match statResult with
    | Except.error e => some e
    | Except.ok fileStat =>
      if fileStat.type = fileTypeDirectory then some FsError.FileIsADirectory
      else if overwrite = false then some FsError.FileExists
      else none
  let checked : Except FsError Unit :=
    match thrown with
    | some _ => if create = false then Except.error FsError.FileNotFound else Except.ok ()
    | none => Except.ok ()
  match checked with
  | Except.error e => ⟨0, 0, Except.error e⟩
  | Except.ok _ =>
    let pre : Nat := if fileExists = false && create then 1 else 0
    ⟨pre, 1, uploadResult⟩

/-- Trace of one `delete` call: listing calls and delete calls issued to the
remote surface, and the overall outcome. -/
structure DeleteTrace where
  listCalls : Nat
  deleteCalls : Nat
  result : Except FsError Unit
deriving Repr

/-- Shallow embedding of `PterodactylFileSystemProvider.delete`
(fsProvider.ts lines 161-187).  With `recursive = false` the target is listed
first (`readDirectory` outcome passed as `listing`; a listing failure is
swallowed, leaving `items = []`); a non-empty listing aborts with
`Unavailable "Directory not empty"` before any delete request.  Otherwise one
delete request is issued and `deleteOutcome` is its funnelled result. -/
def delete (recursive : Bool) (listing : Except FsError (List (String × Nat)))
    (deleteOutcome : Except FsError Unit) : DeleteTrace :=
  if recursive = false then
    let items : List (String × Nat) :=
      match listing with
      | Except.ok l => l
      | Except.error _ => []
    if items.length > 0 then
      ⟨1, 0, Except.error (FsError.Unavailable "Directory not empty")⟩
    else
      ⟨1, 1, deleteOutcome⟩
  else
    ⟨0, 1, deleteOutcome⟩

/-- One entry of the panel's `/list` JSON response (`attributes` object).
`created_at` / `modified_at` carry the millisecond values produced by
`new Date(...).getTime()`. -/
structure PterodactylFileAttributes where
  name : String
  is_file : Bool
  is_symlink : Bool
  created_at : Int
  modified_at : Int
  mode : String
  size : Nat
deriving DecidableEq, Repr

/-- The mapping step of `PterodactylFileSystemProvider.readDirectory`
(fsProvider.ts lines 204-217): each remote entry becomes `(name, type)` where
the type is derived from `is_file × is_symlink` exactly as in the source's
inline conditional chain (which agrees with `getFileType`).  No sorting is
applied. -/
def readDirectory (data : List PterodactylFileAttributes) : List (String × Nat) :=
  data.map (fun file => (file.name, getFileType file.is_file file.is_symlink))

/-- Whether a `vscode.FileType` value has the `File` bit set. -/
def isFileKind (t : Nat) : Bool := t &&& fileTypeFile != 0

/-- The ordering property asserted by the spec for `listDirectory` results:
every directory-kind entry precedes every file-kind entry, and within each
group labels are case-insensitive lexically ascending. -/
def specListingOrdered (l : List (String × Nat)) : Prop :=
  l.Pairwise (fun a b => isFileKind a.2 = true → isFileKind b.2 = true) ∧
  l.Pairwise (fun a b => isFileKind a.2 = isFileKind b.2 → a.1.toLower ≤ b.1.toLower)

instance (l : List (String × Nat)) : Decidable (specListingOrdered l) := by
  unfold specListingOrdered
  infer_instance

/-- A tree item of `PterodactylTreeDataProvider` projected to the fields the
sort comparator reads: its `label` and its `isFile` flag
(`(type & vscode.FileType.File) !== 0`). -/
structure PterodactylTreeItem where
  label : String
  isFile : Bool
deriving DecidableEq, Repr

/-- The comparator of `startAnimatedLoad`'s `treeItems.sort` (treeView source,
lines 86-92) as a boolean "less or equal": when the `isFile` flags differ the
directory comes first (comparator returns `left.isFile ? 1 : -1`); otherwise
the labels are compared with `localeCompare`, abstracted here as an arbitrary
boolean relation `labelLe` (`labelLe a b` models `a.localeCompare(b) <= 0`,
locale collation being external to the program). -/
def treeItemLe (labelLe : String → String → Bool)
    (a b : PterodactylTreeItem) : Bool :=
  if a.isFile = b.isFile then labelLe a.label b.label else !a.isFile

/-- `treeItems.sort(comparator)` of `startAnimatedLoad`, modelled as a merge
sort by the comparator (JavaScript `Array.prototype.sort` is a stable
comparison sort). -/
def sortTreeItems (labelLe : String → String → Bool)
    (items : List PterodactylTreeItem) : List PterodactylTreeItem :=
  items.mergeSort (treeItemLe labelLe)

/-- Association-list lookup for the string-keyed `Map`s of the source
(`Map.get`). -/
def mapLookup {α : Type} : List (String × α) → String → Option α
  | [], _ => none
  | (k, v) :: rest, key => if key = k then some v else mapLookup rest key

/-- `Map.set`: the new binding shadows any previous binding of the key. -/
def mapSet {α : Type} (m : List (String × α)) (key : String) (v : α) :
    List (String × α) :=
  (key, v) :: m

/-- `Map.delete`: removes every binding of the key. -/
def mapDelete {α : Type} (m : List (String × α)) (key : String) :
    List (String × α) :=
  m.filter (fun e => e.1 ≠ key)

/-- The two caches of `PterodactylFileSystemProvider` backing `stat`:
`responseCache` (path key to cached `FileStat`) and `responseCacheHits`
(path key to hit counter). -/
structure StatCacheState where
  responseCache : List (String × FileStat)
  responseCacheHits : List (String × Nat)
deriving Repr

/-- The cache key `"stat:" + uri.toString()` used by `stat`. -/
def statCacheKey (path : String) : String := "stat:" ++ path

/-- JavaScript `String.prototype.split` with a one-character separator,
on the character list of the string.  Like JS `split`, it never returns an
empty list (splitting the empty string yields `[[]]`). -/
def splitOnChar (sep : Char) : List Char → List (List Char)
  | [] => [[]]
  | c :: cs =>
    match splitOnChar sep cs with
    | [] => [[]]
    | seg :: rest => if c = sep then [] :: seg :: rest else (c :: seg) :: rest

/-- `uri.path.split("/").pop()`: the final segment of a path. -/
def lastSegment (path : String) : String :=
  String.mk ((splitOnChar '/' path.data).getLastD [])

/-- The synthesized root entry returned by `stat` for the path `/`. -/
def rootStat : FileStat := ⟨0, 0, false, 0, fileTypeDirectory⟩

/-- The `FileStat` built from a located listing entry (fsProvider.ts lines
318-324): `permissions` is `Readonly` unless `mode[2] === "w"` (the group
write bit of the permission string). -/
def statBuild (file : PterodactylFileAttributes) : FileStat :=
  { ctime := file.created_at
    mtime := file.modified_at
    readonlyPerm := if file.mode.data.getD 2 ' ' = 'w' then false else true
    size := file.size
    type := getFileType file.is_file file.is_symlink }

/-- Shallow embedding of `PterodactylFileSystemProvider.stat` (fsProvider.ts
lines 275-335).  A live cache entry is returned immediately and its hit
counter incremented; the root path `/` returns a synthesized directory entry
without caching; otherwise the parent-directory listing (`parentListing`, the
funnelled outcome of the `/list` call on the parent) is searched for the
final path segment, the result is cached with hit counter 0 (its 10-second
eviction timer is the separate `evictStat`), and `FileNotFound` is raised
when the segment is absent. -/
def stat (s : StatCacheState) (path : String)
    (parentListing : Except FsError (List PterodactylFileAttributes)) :
    Except FsError FileStat × StatCacheState :=
  let cacheKey := statCacheKey path
  match mapLookup s.responseCache cacheKey with
  | some cached =>
    let cacheHits := (mapLookup s.responseCacheHits cacheKey).getD 0
    (Except.ok cached,
     { s with responseCacheHits := mapSet s.responseCacheHits cacheKey (cacheHits + 1) })
  | none =>
    if path = "/" then
      (Except.ok rootStat, s)
    else
      match parentListing with
      | Except.error e => (Except.error e, s)
      | Except.ok data =>
        match data.find? (fun entry => entry.name = lastSegment path) with
        | none => (Except.error FsError.FileNotFound, s)
        | some file =>
          let responseStat := statBuild file
          (Except.ok responseStat,
           { responseCache := mapSet s.responseCache cacheKey responseStat
             responseCacheHits := mapSet s.responseCacheHits cacheKey 0 })

/-- The deferred eviction timer scheduled by `stat` 10 seconds after a cache
fill: it deletes the entry and its hit counter.  A second `stat` "within 10
seconds" is one issued before this fires. -/
def evictStat (s : StatCacheState) (path : String) : StatCacheState :=
  { responseCache := mapDelete s.responseCache (statCacheKey path)
    responseCacheHits := mapDelete s.responseCacheHits (statCacheKey path) }

/-- Trace of one `readFile` call: how many attempts were made (the number of
the last attempt issued), the backoff delays awaited between attempts, in
order, and the final outcome.  The payload is the byte array. -/
structure ReadTrace where
  attempts : Nat
  delays : List Nat
  result : Except FsError (List Nat)
deriving Repr

/-- The retry loop of `PterodactylFileSystemProvider.readFile` (fsProvider.ts
lines 220-247), from attempt number `attempt` up to `maxRetries`.
`outcome n` is the result of attempt `n`: the fetched bytes, or the error
thrown by the fetch or by `forConnection` on its response.  A failed attempt
below `maxRetries` awaits `2 ^ attempt * 100` milliseconds and retries; the
final attempt's error is rethrown. -/
def readFileGo (outcome : Nat → Except FsError (List Nat))
    (maxRetries attempt : Nat) : ReadTrace :=
  match outcome attempt with
  | Except.ok payload => ⟨attempt, [], Except.ok payload⟩
  | Except.error e =>
    if h : attempt < maxRetries then
      let rest := readFileGo outcome maxRetries (attempt + 1)
      ⟨rest.attempts, 2 ^ attempt * 100 :: rest.delays, rest.result⟩
    else
      ⟨attempt, [], Except.error e⟩
termination_by maxRetries - attempt
decreasing_by omega

/-- `PterodactylFileSystemProvider.readFile`: the loop with
`maxRetries = 3`, starting at attempt 1. -/
def readFile (outcome : Nat → Except FsError (List Nat)) : ReadTrace :=
  readFileGo outcome 3 1

/-- Events driving the `PterodactylTreeDataProvider` model: a `getChildren`
call on a directory, the completion (success or failure) of the load with
ghost identifier `id` for a directory, and the `refresh()` method. -/
inductive TreeEvent where
  | getChildren (dir : String)
  | completeLoad (dir : String) (id : Nat)
  | refreshAll
deriving DecidableEq, Repr

/-- State of `PterodactylTreeDataProvider` restricted to load tracking:
`loadInFlightByDirectory` maps a directory key to the ghost identifier of its
registered in-flight load promise; `visibleItemsByDirectory` records the keys
for which a `visibleItems` entry exists; `outstanding` is ghost
instrumentation listing the `readDirectory` listing requests that have been
issued and not yet answered; `nextId` numbers loads. -/
structure TreeState where
  loadInFlightByDirectory : List (String × Nat)
  visibleItemsByDirectory : List String
  outstanding : List (String × Nat)
  nextId : Nat
deriving DecidableEq, Repr

/-- The provider's initial state: all maps empty. -/
def initTreeState : TreeState := ⟨[], [], [], 0⟩

/-- `PterodactylTreeDataProvider.startAnimatedLoad` (treeView source, lines
74-107): when a load for the directory key is already registered, await it
(no new request); otherwise register a new load promise and issue its
listing request. -/
def startAnimatedLoad (s : TreeState) (dir : String) : TreeState :=
  match mapLookup s.loadInFlightByDirectory dir with
  | some _ => s
  | none =>
    { loadInFlightByDirectory := (dir, s.nextId) :: s.loadInFlightByDirectory
      visibleItemsByDirectory := s.visibleItemsByDirectory
      outstanding := (dir, s.nextId) :: s.outstanding
      nextId := s.nextId + 1 }

/-- `PterodactylTreeDataProvider.getChildren`: returns the visible snapshot
when one exists, otherwise triggers `startAnimatedLoad`. -/
def getChildren (s : TreeState) (dir : String) : TreeState :=
  if dir ∈ s.visibleItemsByDirectory then s else startAnimatedLoad s dir

/-- Completion of the listing request `(dir, id)`: the load promise resolves
(on success or failure it sets a `visibleItems` entry for the key), and its
`finally` clause deletes the key's registration from
`loadInFlightByDirectory`.  A completion for a request that is not
outstanding is a no-op. -/
def completeLoad (s : TreeState) (dir : String) (id : Nat) : TreeState :=
  if (dir, id) ∈ s.outstanding then
    { loadInFlightByDirectory := mapDelete s.loadInFlightByDirectory dir
      visibleItemsByDirectory := dir :: s.visibleItemsByDirectory
      outstanding := s.outstanding.eraseP (fun e => e = (dir, id))
      nextId := s.nextId }
  else s

/-- `PterodactylTreeDataProvider.refresh` (treeView source, lines 61-72):
clears every map — including `loadInFlightByDirectory` — and cancels the
reveal timers, but does not (and cannot) cancel listing requests already
issued: `outstanding` is untouched. -/
def refreshTree (s : TreeState) : TreeState :=
  { loadInFlightByDirectory := []
    visibleItemsByDirectory := []
    outstanding := s.outstanding
    nextId := s.nextId }

/-- One event of the tree provider model. -/
def stepTree (s : TreeState) : TreeEvent → TreeState
  | TreeEvent.getChildren dir => getChildren s dir
  | TreeEvent.completeLoad dir id => completeLoad s dir id
  | TreeEvent.refreshAll => refreshTree s

/-- Run a sequence of tree events from the initial state. -/
def runTree (events : List TreeEvent) : TreeState :=
  events.foldl stepTree initTreeState

/-- Number of outstanding listing requests for a directory key. -/
def outstandingFor (s : TreeState) (dir : String) : Nat :=
  (s.outstanding.filter (fun e => e.1 = dir)).length

/-- Invariant of the tree provider in the absence of `refresh()`: at most one
outstanding listing request per directory, and an outstanding request is
always registered in `loadInFlightByDirectory`. -/
def treeInv (s : TreeState) : Prop :=
  ∀ d, outstandingFor s d ≤ 1
    ∧ (outstandingFor s d ≠ 0 → (mapLookup s.loadInFlightByDirectory d).isSome = true)

/-- State of `StatusBarController` refresh coalescing: the `refreshInFlight`
and `refreshQueued` flags, plus ghost instrumentation: `running` counts
`refresh()` bodies currently executing and `timers` counts pending 250 ms
settle timers. -/
structure StatusState where
  refreshInFlight : Bool
  refreshQueued : Bool
  running : Nat
  timers : Nat
deriving DecidableEq, Repr

/-- The controller's initial state. -/
def initStatusState : StatusState := ⟨false, false, 0, 0⟩

/-- `StatusBarController.requestRefresh` (statusBar source, lines 215-231),
up to its first suspension: when a refresh is in flight it only marks
`refreshQueued` and returns; otherwise it sets `refreshInFlight` and starts
the refresh body. -/
def requestRefresh (s : StatusState) : StatusState :=
  if s.refreshInFlight then { s with refreshQueued := true }
  else { s with refreshInFlight := true, running := s.running + 1 }

/-- The `finally` continuation of `requestRefresh`: the running refresh body
finishes, `refreshInFlight` is cleared, and if `refreshQueued` was set it is
cleared and one 250 ms settle timer is scheduled.  A finish with nothing
running is a no-op (unreachable). -/
def finishRefresh (s : StatusState) : StatusState :=
  if s.running = 0 then s
  else
    let s1 : StatusState := { s with refreshInFlight := false, running := s.running - 1 }
    if s1.refreshQueued then { s1 with refreshQueued := false, timers := s1.timers + 1 }
    else s1

/-- Events driving the status bar model: an external `requestRefresh`
trigger, the completion of the running refresh body, and the firing of a
settle timer (which calls `requestRefresh` again). -/
inductive StatusEvent where
  | request
  | finish
  | timerFire
deriving DecidableEq, Repr

/-- One event of the status bar model. -/
def stepStatus (s : StatusState) : StatusEvent → StatusState
  | StatusEvent.request => requestRefresh s
  | StatusEvent.finish => finishRefresh s
  | StatusEvent.timerFire =>
    if s.timers = 0 then s else requestRefresh { s with timers := s.timers - 1 }

/-- Run a sequence of status events from the initial state. -/
def runStatus (events : List StatusEvent) : StatusState :=
  events.foldl stepStatus initStatusState

/-- `n` consecutive `requestRefresh` triggers. -/
def applyRequests : Nat → StatusState → StatusState
  | 0, s => s
  | n + 1, s => applyRequests n (requestRefresh s)

/-- Invariant of the status bar controller: `refreshInFlight` tracks whether
a refresh body is running, and at most one runs at a time. -/
def statusInv (s : StatusState) : Prop :=
  (s.refreshInFlight = true ↔ s.running = 1) ∧ s.running ≤ 1

/-- `RuntimeState` of `src/state.ts`: the resolved server API URL and the
authorization header. -/
structure RuntimeState where
  serverApiUrl : String
  authHeader : String
deriving DecidableEq, Repr

/-- `createRuntimeState`: both fields empty. -/
def createRuntimeState : RuntimeState := ⟨"", ""⟩

/-- `HARD_CODED_PANEL_URL` of `src/config.ts`. -/
def HARD_CODED_PANEL_URL : String := "https://voidium.uk"

/-- `getPanelUrl` of `src/config.ts`: always the hard-coded panel URL. -/
def getPanelUrl : String := HARD_CODED_PANEL_URL

/-- Whitespace test of JavaScript `String.prototype.trim` restricted to the
common ASCII whitespace characters. -/
def isWsChar (c : Char) : Bool := c = ' ' || c = '\t' || c = '\n' || c = '\r'

/-- JavaScript `String.prototype.trim`, modelled on the character list. -/
def trimString (s : String) : String :=
  String.mk (((s.data.dropWhile isWsChar).reverse.dropWhile isWsChar).reverse)

/-- The truthiness-and-trim check shared by `getServerId` and `getApiKey` of
`src/config.ts`:  `value && value.trim() ? value : void 0`.  `none` models an
unset configuration value. -/
def truthyTrimmed (value : Option String) : Option String :=
  match value with
  | none => none
  | some s => if s = "" then none else if trimString s = "" then none else some s

/-- `getServerId` of `src/config.ts` over the persisted `serverId` value. -/
def getServerId (cfg : Option String) : Option String := truthyTrimmed cfg

/-- `getApiKey` of `src/config.ts` over the persisted `apiKey` value. -/
def getApiKey (cfg : Option String) : Option String := truthyTrimmed cfg

/-- `buildServerApiUrl` of `src/config.ts`. -/
def buildServerApiUrl (panelUrl serverId : String) : String :=
  panelUrl ++ "/api/client/servers/" ++ serverId ++ "/files"

/-- `hydrateRuntimeState` of `src/state.ts`: sets `serverApiUrl` when panel
URL and server id are both present, and independently sets `authHeader` when
an API key is present. -/
def hydrateRuntimeState (s : RuntimeState) (serverIdCfg apiKeyCfg : Option String) :
    RuntimeState :=
  let panelUrl := getPanelUrl
  let s1 : RuntimeState :=
    match getServerId serverIdCfg with
    | some serverId =>
      if panelUrl = "" then s
      else { s with serverApiUrl := buildServerApiUrl panelUrl serverId }
    | none => s
  match getApiKey apiKeyCfg with
  | some apiKey => { s1 with authHeader := "Bearer " ++ apiKey }
  | none => s1

/-- `connectRuntimeState` of `src/state.ts`: overwrites both fields. -/
def connectRuntimeState (s : RuntimeState) (panelUrl serverId apiKey : String) :
    RuntimeState :=
  let _ := s
  { serverApiUrl := buildServerApiUrl panelUrl serverId
    authHeader := "Bearer " ++ apiKey }

/-- `clearRuntimeState` of `src/state.ts`: empties both fields. -/
def clearRuntimeState (s : RuntimeState) : RuntimeState :=
  let _ := s
  { serverApiUrl := "", authHeader := "" }

/-- The `ConnectionState` invariant stated by the spec: both fields empty, or
both non-empty. -/
def connStateInv (s : RuntimeState) : Prop :=
  (s.serverApiUrl = "" ∧ s.authHeader = "") ∨ (s.serverApiUrl ≠ "" ∧ s.authHeader ≠ "")

/-- `Array.prototype.join(".")` on the segment lists produced by `split`. -/
def joinDot : List (List Char) → List Char
  | [] => []
  | [seg] => seg
  | seg :: rest => seg ++ '.' :: joinDot rest

/-- The intermediate duplicated name computed by
`PterodactylFileSystemProvider.copy` (fsProvider.ts lines 113-118) for the
rename step, on the character list of the source's final path segment
`oldName`: the segments are `oldName.split(".")`, the stem is
`segments.slice(0, -1).join(".")`, the last segment is `segments.at(-1)`,
and the result is the template `` `${stem} copy.${last}` ``. -/
def copiedLocation (oldName : List Char) : List Char :=
  let oldNameSegments := splitOnChar '.' oldName
  let oldNameStem := joinDot oldNameSegments.dropLast
  let oldNameLast := oldNameSegments.getLastD []
  oldNameStem ++ (" copy.".data ++ oldNameLast)

end Voidium

namespace Voidium

/-- Claim C2 (counterexample): an HTTP 401 where the user dismisses the
warning message (does not click "Authenticate") invokes the
authentication-failure callback zero times, not exactly once, though the call
still fails with `NoPermissions`. -/
theorem forConnection_401_dismissed_zero_callbacks :
    (forConnection false ⟨401, none⟩).1 = 0 ∧
    ¬ (forConnection false ⟨401, none⟩).1 = 1 ∧
    (forConnection false ⟨401, none⟩).2 = Except.error FsError.NoPermissions := by
  refine ⟨rfl, ?_, rfl⟩
  intro h
  simp [forConnection] at h

/-- Claim C2 (amended): on any HTTP 401 the bridge invokes the
authentication-failure callback exactly once when the user clicks
"Authenticate" and zero times otherwise, and the call always fails with the
`NoPermissions` error kind — in particular never with an `Unavailable`
(server-unavailable) error. -/
theorem forConnection_401_behavior (clicked : Bool) (resp : HttpResponse)
    (h : resp.status = 401) :
    forConnection clicked resp =
      ((if clicked then 1 else 0), Except.error FsError.NoPermissions) := by
  obtain ⟨st, det⟩ := resp
  simp only at h
  subst h
  rfl

/-- Witness for `forConnection_401_behavior` at a concrete 401 response. -/
theorem forConnection_401_behavior_witness :
    forConnection true ⟨401, none⟩ = (1, Except.error FsError.NoPermissions) :=
  forConnection_401_behavior true ⟨401, none⟩ rfl

/-- Claim C1 (failing-input evaluation): `writeFile` on a path whose stat
reports a directory, with `{create:false, overwrite:false}`, fails with
`FileNotFound` — not `FileIsADirectory` — because the bare `catch` swallows
the `FileIsADirectory` throw; with `{create:true, overwrite:true}` the write
proceeds and succeeds.  Likewise an existing file with `overwrite:false` and
`create:true` proceeds instead of failing `FileExists`.  Only the
"missing file and `create:false` fails `NotFound`" clause behaves as claimed. -/
theorem writeFile_swallows_errors :
    (writeFile (Except.ok ⟨0, 0, false, 0, fileTypeDirectory⟩) false false (Except.ok ())
      = ⟨0, 0, Except.error FsError.FileNotFound⟩) ∧
    (writeFile (Except.ok ⟨0, 0, false, 0, fileTypeDirectory⟩) true true (Except.ok ())
      = ⟨0, 1, Except.ok ()⟩) ∧
    (writeFile (Except.ok ⟨0, 0, false, 0, fileTypeFile⟩) true false (Except.ok ())
      = ⟨0, 1, Except.ok ()⟩) ∧
    (writeFile (Except.error FsError.FileNotFound) false false (Except.ok ())
      = ⟨0, 0, Except.error FsError.FileNotFound⟩) :=
  ⟨rfl, rfl, rfl, rfl⟩

/-- Claim C4: `delete` with `recursive = false` on a directory whose listing
is non-empty issues the one listing call, fails with
`Unavailable "Directory not empty"`, and issues zero delete calls. -/
theorem delete_nonempty_aborts (listing : List (String × Nat))
    (hne : listing ≠ []) (deleteOutcome : Except FsError Unit) :
    delete false (Except.ok listing) deleteOutcome =
      ⟨1, 0, Except.error (FsError.Unavailable "Directory not empty")⟩ := by
  unfold delete
  cases listing with
  | nil => exact absurd rfl hne
  | cons a l => simp

/-- Witness for `delete_nonempty_aborts` on a one-entry listing. -/
theorem delete_nonempty_aborts_witness :
    delete false (Except.ok [("server.jar", fileTypeFile)]) (Except.ok ()) =
      ⟨1, 0, Except.error (FsError.Unavailable "Directory not empty")⟩ :=
  delete_nonempty_aborts [("server.jar", fileTypeFile)] (by simp) (Except.ok ())

/-- The tree comparator is transitive whenever the label comparison is. -/
theorem treeItemLe_trans (labelLe : String → String → Bool)
    (htrans : ∀ x y z, labelLe x y = true → labelLe y z = true → labelLe x z = true)
    (a b c : PterodactylTreeItem)
    (hab : treeItemLe labelLe a b = true) (hbc : treeItemLe labelLe b c = true) :
    treeItemLe labelLe a c = true := by
  cases ha : a.isFile <;> cases hb : b.isFile <;> cases hc : c.isFile <;>
    simp_all [treeItemLe] <;>
    exact htrans _ _ _ hab hbc

/-- The tree comparator is total whenever the label comparison is. -/
theorem treeItemLe_total (labelLe : String → String → Bool)
    (htotal : ∀ x y, (labelLe x y || labelLe y x) = true)
    (a b : PterodactylTreeItem) :
    (treeItemLe labelLe a b || treeItemLe labelLe b a) = true := by
  cases ha : a.isFile <;> cases hb : b.isFile <;> simp [treeItemLe, ha, hb]
  · exact (Bool.or_eq_true _ _).mp (htotal a.label b.label)
  · exact (Bool.or_eq_true _ _).mp (htotal a.label b.label)

/-- Claim C3 (counterexample): the bridge's `readDirectory` applies no sort —
it returns entries in the order the remote listing provides them.  On a
listing whose first entry is a file and second a directory, the result has a
file-kind entry before a directory-kind entry, so the claimed ordering fails. -/
theorem readDirectory_not_ordered :
    ¬ specListingOrdered (readDirectory
      [⟨"alpha.txt", true, false, 0, 0, "rw-", 3⟩,
       ⟨"Backups", false, false, 0, 0, "rwx", 0⟩]) := by
  intro h
  have h1 := h.1
  simp [readDirectory, getFileType, isFileKind, fileTypeFile, fileTypeDirectory] at h1

/-- Claim C3 (amended): `readDirectory` itself returns entries in exactly the
remote-provided order (first conjunct: the produced names are the listing's
names, in order).  The deterministic ordering is applied by the tree
provider's `startAnimatedLoad`: for any transitive and total label comparison
(modelling `localeCompare`), the sorted items are a permutation of the input
in which every directory item precedes every file item, and any two items of
the same kind are in label-comparison order. -/
theorem listing_order_and_treeSort :
    (∀ data : List PterodactylFileAttributes,
        (readDirectory data).map Prod.fst = data.map PterodactylFileAttributes.name)
    ∧ (∀ labelLe : String → String → Bool,
        (∀ x y z, labelLe x y = true → labelLe y z = true → labelLe x z = true) →
        (∀ x y, (labelLe x y || labelLe y x) = true) →
        ∀ items : List PterodactylTreeItem,
          (sortTreeItems labelLe items).Perm items
          ∧ (sortTreeItems labelLe items).Pairwise
              (fun a b => a.isFile = true → b.isFile = true)
          ∧ (sortTreeItems labelLe items).Pairwise
              (fun a b => a.isFile = b.isFile → labelLe a.label b.label = true)) := by
  constructor
  · intro data
    simp [readDirectory]
  · intro labelLe htrans htotal items
    have hperm : (sortTreeItems labelLe items).Perm items :=
      List.mergeSort_perm items (treeItemLe labelLe)
    have hsorted : (sortTreeItems labelLe items).Pairwise
        (fun a b => treeItemLe labelLe a b = true) := by
      have h : (items.mergeSort (treeItemLe labelLe)).Pairwise
          (fun a b => treeItemLe labelLe a b = true) :=
        List.sorted_mergeSort
          (fun a b c hab hbc => treeItemLe_trans labelLe htrans a b c hab hbc)
          (fun a b => treeItemLe_total labelLe htotal a b)
          items
      exact h
    refine ⟨hperm, ?_, ?_⟩
    · refine hsorted.imp ?_
      intro a b h ha
      cases hb : b.isFile
      · rw [treeItemLe, ha, hb] at h
        simp at h
      · rfl
    · refine hsorted.imp ?_
      intro a b h he
      rw [treeItemLe, if_pos he] at h
      exact h

/-- Witness for `listing_order_and_treeSort`: instantiated with the
dictionary order on strings as label comparison and a concrete two-item
directory listing (one file, one directory). -/
theorem listing_order_and_treeSort_witness :
    (sortTreeItems (fun x y => decide (x ≤ y))
        [⟨"beta.txt", true⟩, ⟨"Alpha", false⟩]).Perm
        [⟨"beta.txt", true⟩, ⟨"Alpha", false⟩]
    ∧ (sortTreeItems (fun x y => decide (x ≤ y))
        [⟨"beta.txt", true⟩, ⟨"Alpha", false⟩]).Pairwise
        (fun a b => a.isFile = true → b.isFile = true)
    ∧ (sortTreeItems (fun x y => decide (x ≤ y))
        [⟨"beta.txt", true⟩, ⟨"Alpha", false⟩]).Pairwise
        (fun a b => a.isFile = b.isFile → decide (a.label ≤ b.label) = true) :=
  listing_order_and_treeSort.2 (fun x y => decide (x ≤ y))
    (fun x y z hxy hyz => by
      simp only [decide_eq_true_eq] at hxy hyz ⊢
      exact le_trans hxy hyz)
    (fun x y => by simpa using le_total x y)
    [⟨"beta.txt", true⟩, ⟨"Alpha", false⟩]

/-- Looking up a key just set returns the set value. -/
theorem mapLookup_mapSet_self {α : Type} (m : List (String × α)) (k : String)
    (v : α) : mapLookup (mapSet m k v) k = some v := by
  simp [mapLookup, mapSet]

/-- Claim C5 (counterexample at the root path): `stat "/"` is answered by the
synthesized root entry before the cache is ever filled, so two consecutive
calls both return the identical metadata but leave the cache state untouched:
no hit counter for `/` exists after the second call, hence no counter
increments. -/
theorem stat_root_never_counts :
    (stat ⟨[], []⟩ "/" (Except.ok [])).1 = Except.ok rootStat
    ∧ (stat ⟨[], []⟩ "/" (Except.ok [])).2 = ⟨[], []⟩
    ∧ (stat (stat ⟨[], []⟩ "/" (Except.ok [])).2 "/" (Except.ok [])).1
        = Except.ok rootStat
    ∧ mapLookup (stat (stat ⟨[], []⟩ "/" (Except.ok [])).2 "/"
        (Except.ok [])).2.responseCacheHits (statCacheKey "/") = none := by
  refine ⟨rfl, rfl, rfl, rfl⟩

/-- Claim C5 (amended): for every non-root path whose first `stat` succeeds
from a cold cache, a second `stat` before the 10-second eviction returns the
identical metadata without consulting the (arbitrary) second listing, and the
path's hit counter increments from 0 to 1. -/
theorem stat_second_call_cached (s0 : StatCacheState) (p : String)
    (L L' : Except FsError (List PterodactylFileAttributes)) (m : FileStat)
    (hmiss : mapLookup s0.responseCache (statCacheKey p) = none)
    (hroot : p ≠ "/")
    (hok : (stat s0 p L).1 = Except.ok m) :
    (stat (stat s0 p L).2 p L').1 = Except.ok m
    ∧ mapLookup (stat s0 p L).2.responseCacheHits (statCacheKey p) = some 0
    ∧ mapLookup (stat (stat s0 p L).2 p L').2.responseCacheHits (statCacheKey p)
        = some 1 := by
  cases L with
  | error e =>
    exfalso
    rw [stat] at hok
    simp [hmiss, hroot] at hok
  | ok data =>
    cases hfind : data.find? (fun entry => entry.name = lastSegment p) with
    | none =>
      exfalso
      rw [stat] at hok
      simp [hmiss, hroot, hfind] at hok
    | some file =>
      have hstat : stat s0 p (Except.ok data) =
          (Except.ok (statBuild file),
           { responseCache := mapSet s0.responseCache (statCacheKey p) (statBuild file)
             responseCacheHits := mapSet s0.responseCacheHits (statCacheKey p) 0 }) := by
        rw [stat]
        simp [hmiss, hroot, hfind]
      have hm : statBuild file = m := by
        rw [hstat] at hok
        exact (Except.ok.injEq _ _).mp hok
      rw [hstat]
      refine ⟨?_, ?_, ?_⟩
      · rw [stat.eq_def]
        simp [mapLookup_mapSet_self, hm]
      · simp [mapLookup_mapSet_self]
      · rw [stat.eq_def]
        simp [mapLookup_mapSet_self]

/-- Witness for `stat_second_call_cached` on a concrete path and listing. -/
theorem stat_second_call_cached_witness :
    (stat (stat ⟨[], []⟩ "/server.properties"
        (Except.ok [⟨"server.properties", true, false, 5, 7, "-rw-r--r--", 42⟩])).2
      "/server.properties" (Except.error FsError.FileNotFound)).1
        = Except.ok ⟨5, 7, false, 42, fileTypeFile⟩
    ∧ mapLookup (stat ⟨[], []⟩ "/server.properties"
        (Except.ok [⟨"server.properties", true, false, 5, 7, "-rw-r--r--", 42⟩])).2.responseCacheHits
        (statCacheKey "/server.properties") = some 0
    ∧ mapLookup (stat (stat ⟨[], []⟩ "/server.properties"
        (Except.ok [⟨"server.properties", true, false, 5, 7, "-rw-r--r--", 42⟩])).2
        "/server.properties" (Except.error FsError.FileNotFound)).2.responseCacheHits
        (statCacheKey "/server.properties") = some 1 :=
  stat_second_call_cached ⟨[], []⟩ "/server.properties"
    (Except.ok [⟨"server.properties", true, false, 5, 7, "-rw-r--r--", 42⟩])
    (Except.error FsError.FileNotFound)
    ⟨5, 7, false, 42, fileTypeFile⟩
    rfl
    (by decide)
    (by rfl)

/-- Claim C6: `readFile` makes at most 3 attempts; a success at any attempt
returns the payload immediately with no further attempts; a failed attempt 1
is followed by a 200 ms delay and a failed attempt 2 by a 400 ms delay; and
when all three attempts fail, the third attempt's error is the one surfaced. -/
theorem readFile_retry_policy (outcome : Nat → Except FsError (List Nat)) :
    (readFile outcome).attempts ≤ 3
    ∧ (∀ p, outcome 1 = Except.ok p →
        readFile outcome = ⟨1, [], Except.ok p⟩)
    ∧ (∀ e1 p, outcome 1 = Except.error e1 → outcome 2 = Except.ok p →
        readFile outcome = ⟨2, [200], Except.ok p⟩)
    ∧ (∀ e1 e2 p, outcome 1 = Except.error e1 → outcome 2 = Except.error e2 →
        outcome 3 = Except.ok p →
        readFile outcome = ⟨3, [200, 400], Except.ok p⟩)
    ∧ (∀ e1 e2 e3, outcome 1 = Except.error e1 → outcome 2 = Except.error e2 →
        outcome 3 = Except.error e3 →
        readFile outcome = ⟨3, [200, 400], Except.error e3⟩) := by
  refine ⟨?_, ?_, ?_, ?_, ?_⟩
  · rcases ho1 : outcome 1 with e1 | p1
    · rcases ho2 : outcome 2 with e2 | p2
      · rcases ho3 : outcome 3 with e3 | p3
        · simp [readFile, readFileGo, ho1, ho2, ho3]
        · simp [readFile, readFileGo, ho1, ho2, ho3]
      · simp [readFile, readFileGo, ho1, ho2]
    · simp [readFile, readFileGo, ho1]
  · intro p h1
    simp [readFile, readFileGo, h1]
  · intro e1 p h1 h2
    simp [readFile, readFileGo, h1, h2]
  · intro e1 e2 p h1 h2 h3
    simp [readFile, readFileGo, h1, h2, h3]
  · intro e1 e2 e3 h1 h2 h3
    simp [readFile, readFileGo, h1, h2, h3]

/-- Witness for `readFile_retry_policy`: two transport failures followed by a
success on the third attempt yield the payload after delays of 200 ms and
400 ms. -/
theorem readFile_retry_policy_witness :
    readFile (fun n => if n = 3 then Except.ok [7]
      else Except.error (FsError.Unavailable "transport")) =
      ⟨3, [200, 400], Except.ok [7]⟩ :=
  (readFile_retry_policy (fun n => if n = 3 then Except.ok [7]
      else Except.error (FsError.Unavailable "transport"))).2.2.2.1
    (FsError.Unavailable "transport") (FsError.Unavailable "transport") [7]
    rfl rfl rfl

/-- Claim C9 (counterexample): hydrating the freshly created runtime state
from a configuration that has a server id but no API key produces a state
with a non-empty `serverApiUrl` and an empty `authHeader`, violating the
both-empty-or-both-non-empty invariant. -/
theorem hydrate_breaks_connStateInv :
    ¬ connStateInv (hydrateRuntimeState createRuntimeState (some "a1b2c3") none) := by
  intro h
  rcases h with ⟨h1, _⟩ | ⟨_, h2⟩
  · exact absurd h1 (by decide)
  · exact h2 rfl

/-- Claim C9 (amended): startup (`createRuntimeState`) yields both fields
empty; a successful connect (`connectRuntimeState`) yields both non-empty;
reset (`clearRuntimeState`) yields both empty.  Hydration from configuration
(and the configuration-change and authentication-failure paths) can set the
fields independently, so the invariant does not hold at every reachable
state — see the counterexample. -/
theorem runtimeState_lifecycle :
    connStateInv createRuntimeState
    ∧ (∀ (s : RuntimeState) (panelUrl serverId apiKey : String),
        (connectRuntimeState s panelUrl serverId apiKey).serverApiUrl ≠ ""
        ∧ (connectRuntimeState s panelUrl serverId apiKey).authHeader ≠ ""
        ∧ connStateInv (connectRuntimeState s panelUrl serverId apiKey))
    ∧ (∀ s : RuntimeState, connStateInv (clearRuntimeState s)) := by
  refine ⟨Or.inl ⟨rfl, rfl⟩, ?_, fun s => Or.inl ⟨rfl, rfl⟩⟩
  intro s panelUrl serverId apiKey
  have hurl : (connectRuntimeState s panelUrl serverId apiKey).serverApiUrl ≠ "" := by
    intro h
    have hlen := congrArg String.length h
    simp only [connectRuntimeState, buildServerApiUrl, String.length_append] at hlen
    have h20 : ("/api/client/servers/" : String).length = 20 := rfl
    have h6 : ("/files" : String).length = 6 := rfl
    have h0 : ("" : String).length = 0 := rfl
    omega
  have hauth : (connectRuntimeState s panelUrl serverId apiKey).authHeader ≠ "" := by
    intro h
    have hlen := congrArg String.length h
    simp only [connectRuntimeState, String.length_append] at hlen
    have h7 : ("Bearer " : String).length = 7 := rfl
    have h0 : ("" : String).length = 0 := rfl
    omega
  exact ⟨hurl, hauth, Or.inr ⟨hurl, hauth⟩⟩

/-- Witness for `runtimeState_lifecycle` at a concrete connect. -/
theorem runtimeState_lifecycle_witness :
    (connectRuntimeState ⟨"", ""⟩ "https://voidium.uk" "a1b2c3" "key").serverApiUrl ≠ ""
    ∧ (connectRuntimeState ⟨"", ""⟩ "https://voidium.uk" "a1b2c3" "key").authHeader ≠ ""
    ∧ connStateInv (connectRuntimeState ⟨"", ""⟩ "https://voidium.uk" "a1b2c3" "key") :=
  runtimeState_lifecycle.2.1 ⟨"", ""⟩ "https://voidium.uk" "a1b2c3" "key"

/-- Claim C10: when the final segment of the source path contains no dot,
the intermediate duplicated name computed by `copy` for the rename step is
the string `" copy."` followed by the whole segment — the stem is empty. -/
theorem copiedLocation_no_dot (oldName : List Char) (h : '.' ∉ oldName) :
    copiedLocation oldName = " copy.".data ++ oldName := by
  have hsplit : splitOnChar '.' oldName = [oldName] := by
    induction oldName with
    | nil => rfl
    | cons c cs ih =>
      have hc : ¬ c = '.' := by
        intro hceq
        subst hceq
        exact h (List.mem_cons_self _ _)
      have hcs : '.' ∉ cs := fun hm => h (List.mem_cons_of_mem c hm)
      rw [splitOnChar, ih hcs]
      simp [hc]
  rw [copiedLocation, hsplit]
  rfl

/-- Witness for `copiedLocation_no_dot`: a source named `notes` yields the
intermediate name `" copy.notes"`. -/
theorem copiedLocation_no_dot_witness :
    copiedLocation "notes".data = " copy.".data ++ "notes".data :=
  copiedLocation_no_dot "notes".data (by decide)

/-- `requestRefresh` preserves the status bar invariant. -/
theorem statusInv_requestRefresh (s : StatusState) (h : statusInv s) :
    statusInv (requestRefresh s) := by
  obtain ⟨hiff, hle⟩ := h
  by_cases hf : s.refreshInFlight = true
  · have h1 : s.running = 1 := hiff.mp hf
    simp [statusInv, requestRefresh, hf, h1]
  · have h0 : s.running = 0 := by
      have h1 : ¬ s.running = 1 := fun h1 => hf (hiff.mpr h1)
      omega
    simp [statusInv, requestRefresh, hf, h0]

/-- Every status bar event preserves the invariant. -/
theorem statusInv_step (s : StatusState) (e : StatusEvent) (h : statusInv s) :
    statusInv (stepStatus s e) := by
  cases e with
  | request => exact statusInv_requestRefresh s h
  | finish =>
    obtain ⟨hiff, hle⟩ := h
    by_cases h0 : s.running = 0
    · show statusInv (finishRefresh s)
      rw [finishRefresh, if_pos h0]
      exact ⟨hiff, hle⟩
    · have h1 : s.running = 1 := by omega
      by_cases hq : s.refreshQueued = true
      · simp [stepStatus, finishRefresh, h0, h1, hq, statusInv]
      · simp [stepStatus, finishRefresh, h0, h1, hq, statusInv]
  | timerFire =>
    by_cases ht : s.timers = 0
    · simpa [stepStatus, ht] using h
    · have h2 := statusInv_requestRefresh { s with timers := s.timers - 1 } h
      simpa [stepStatus, ht] using h2

/-- Every state reachable from the controller's initial state satisfies the
invariant. -/
theorem statusInv_run (events : List StatusEvent) : statusInv (runStatus events) := by
  have hgen : ∀ (es : List StatusEvent) (s : StatusState), statusInv s →
      statusInv (es.foldl stepStatus s) := by
    intro es
    induction es with
    | nil => intro s hs; exact hs
    | cons e es ih => intro s hs; exact ih _ (statusInv_step s e hs)
  exact hgen events initStatusState (by simp [statusInv, initStatusState])

/-- While a refresh is in flight, any positive number of `requestRefresh`
triggers only sets the `refreshQueued` flag. -/
theorem applyRequests_inFlight (n : Nat) :
    ∀ s : StatusState, s.refreshInFlight = true →
      applyRequests n s = if n = 0 then s else { s with refreshQueued := true } := by
  induction n with
  | zero => intro s _; simp [applyRequests]
  | succ m ih =>
    intro s h
    have hstep : requestRefresh s = { s with refreshQueued := true } := by
      rw [requestRefresh, if_pos h]
    rw [applyRequests, hstep, ih { s with refreshQueued := true } h]
    by_cases hm : m = 0 <;> simp [hm]

/-- Claim C8: the status refresh is single-flight with queue depth 1.  In
every reachable state at most one refresh body runs; and when a refresh is in
flight, any number `n ≥ 1` of `requestRefresh` triggers only marks one queued
refresh, and the running refresh's completion then schedules exactly one
250 ms trailing timer, clearing the queued flag — no matter how large `n`
was. -/
theorem requestRefresh_coalesces (events : List StatusEvent) (n : Nat) (hn : 1 ≤ n) :
    (runStatus events).running ≤ 1
    ∧ ((runStatus events).refreshInFlight = true →
        applyRequests n (runStatus events) =
          { runStatus events with refreshQueued := true }
        ∧ finishRefresh (applyRequests n (runStatus events)) =
          { refreshInFlight := false, refreshQueued := false, running := 0,
            timers := (runStatus events).timers + 1 }) := by
  have hinv := statusInv_run events
  refine ⟨hinv.2, ?_⟩
  intro hf
  have h1 : (runStatus events).running = 1 := hinv.1.mp hf
  have happ := applyRequests_inFlight n (runStatus events) hf
  rw [if_neg (by omega)] at happ
  refine ⟨happ, ?_⟩
  rw [happ, finishRefresh]
  simp [h1]

/-- Witness for `requestRefresh_coalesces`: one trigger starts a refresh;
three further triggers while it runs coalesce into one queued refresh and one
trailing timer. -/
theorem requestRefresh_coalesces_witness :
    (runStatus [StatusEvent.request]).running ≤ 1
    ∧ ((runStatus [StatusEvent.request]).refreshInFlight = true →
        applyRequests 3 (runStatus [StatusEvent.request]) =
          { runStatus [StatusEvent.request] with refreshQueued := true }
        ∧ finishRefresh (applyRequests 3 (runStatus [StatusEvent.request])) =
          { refreshInFlight := false, refreshQueued := false, running := 0,
            timers := (runStatus [StatusEvent.request]).timers + 1 }) :=
  requestRefresh_coalesces [StatusEvent.request] 3 (by decide)

/-- Erasing an element that cannot satisfy the filter leaves the filter
unchanged. -/
theorem filter_eraseP_of_not {α : Type} (p q : α → Bool) (l : List α)
    (h : ∀ x, p x = true → q x = false) :
    (l.eraseP p).filter q = l.filter q := by
  induction l with
  | nil => rfl
  | cons a l ih =>
    cases hp : p a with
    | true => simp [List.eraseP_cons, hp, List.filter_cons, h a hp]
    | false => simp [List.eraseP_cons, hp, List.filter_cons, ih]

/-- Erasing one occurrence of a member that satisfies the filter shortens the
filter by exactly one. -/
theorem filter_length_eraseP_mem {α : Type} [DecidableEq α] (l : List α) (a : α)
    (q : α → Bool) (ha : a ∈ l) (hq : q a = true) :
    ((l.eraseP (fun x => x = a)).filter q).length + 1 = (l.filter q).length := by
  induction l with
  | nil => cases ha
  | cons b l ih =>
    by_cases hb : b = a
    · subst hb
      simp [List.eraseP_cons, List.filter_cons, hq]
    · have ha' : a ∈ l := by
        rcases List.mem_cons.mp ha with h1 | h1
        · exact absurd h1.symm hb
        · exact h1
      cases hqb : q b with
      | true =>
        have hlen := ih ha'
        simp [List.eraseP_cons, hb, List.filter_cons, hqb]
        omega
      | false =>
        simpa [List.eraseP_cons, hb, List.filter_cons, hqb] using ih ha'

/-- Deleting one key of an association map leaves lookups of other keys
unchanged. -/
theorem mapLookup_mapDelete_ne {α : Type} (m : List (String × α)) (k d : String)
    (h : d ≠ k) : mapLookup (mapDelete m k) d = mapLookup m d := by
  induction m with
  | nil => rfl
  | cons e m ih =>
    obtain ⟨k1, v⟩ := e
    by_cases he : k1 = k
    · have hd1 : ¬ d = k1 := fun hdk1 => h (hdk1.trans he)
      rw [show mapDelete ((k1, v) :: m) k = mapDelete m k from by
        simp [mapDelete, List.filter_cons, he]]
      rw [ih]
      simp [mapLookup, hd1]
    · rw [show mapDelete ((k1, v) :: m) k = (k1, v) :: mapDelete m k from by
        simp [mapDelete, List.filter_cons, he]]
      by_cases hd : d = k1
      · simp [mapLookup, hd]
      · simp [mapLookup, hd, ih]

/-- Every tree provider event other than `refresh()` preserves the
single-flight invariant. -/
theorem treeInv_step (s : TreeState) (e : TreeEvent) (h : treeInv s)
    (hne : e ≠ TreeEvent.refreshAll) : treeInv (stepTree s e) := by
  cases e with
  | refreshAll => exact absurd rfl hne
  | getChildren dir =>
    show treeInv (getChildren s dir)
    by_cases hv : dir ∈ s.visibleItemsByDirectory
    · rw [getChildren, if_pos hv]
      exact h
    · rw [getChildren, if_neg hv]
      cases hl : mapLookup s.loadInFlightByDirectory dir with
      | some id =>
        rw [startAnimatedLoad, hl]
        exact h
      | none =>
        rw [show startAnimatedLoad s dir =
            ⟨(dir, s.nextId) :: s.loadInFlightByDirectory, s.visibleItemsByDirectory,
             (dir, s.nextId) :: s.outstanding, s.nextId + 1⟩ from by
          rw [startAnimatedLoad, hl]]
        intro d
        have h0 : (s.outstanding.filter (fun e => e.1 = dir)).length = 0 := by
          by_contra hne0
          have hsome := (h dir).2 hne0
          rw [hl] at hsome
          simp at hsome
        by_cases hd : d = dir
        · subst hd
          refine ⟨?_, ?_⟩
          · show (((d, s.nextId) :: s.outstanding).filter (fun e => e.1 = d)).length ≤ 1
            simp [List.filter_cons, h0]
          · intro _
            show (mapLookup ((d, s.nextId) :: s.loadInFlightByDirectory) d).isSome = true
            simp [mapLookup]
        · have hne' : ¬ dir = d := fun hdd => hd hdd.symm
          refine ⟨?_, ?_⟩
          · show (((dir, s.nextId) :: s.outstanding).filter (fun e => e.1 = d)).length ≤ 1
            rw [List.filter_cons]
            simp only [decide_eq_true_eq, if_neg hne']
            exact (h d).1
          · intro hne0
            show (mapLookup ((dir, s.nextId) :: s.loadInFlightByDirectory) d).isSome = true
            rw [show mapLookup ((dir, s.nextId) :: s.loadInFlightByDirectory) d
                = mapLookup s.loadInFlightByDirectory d from by simp [mapLookup, hd]]
            refine (h d).2 ?_
            have hne1 : (((dir, s.nextId) :: s.outstanding).filter
                (fun e => e.1 = d)).length ≠ 0 := hne0
            rw [List.filter_cons] at hne1
            simp only [decide_eq_true_eq, if_neg hne'] at hne1
            exact hne1
  | completeLoad dir id =>
    show treeInv (completeLoad s dir id)
    by_cases hmem : (dir, id) ∈ s.outstanding
    · rw [completeLoad, if_pos hmem]
      intro d
      by_cases hd : d = dir
      · subst hd
        have hcount := filter_length_eraseP_mem s.outstanding (d, id)
          (fun e => e.1 = d) hmem (by simp)
        have hle : (s.outstanding.filter (fun e => e.1 = d)).length ≤ 1 := (h d).1
        have h0 : ((s.outstanding.eraseP (fun e => e = (d, id))).filter
            (fun e => e.1 = d)).length = 0 := by omega
        refine ⟨?_, ?_⟩
        · show ((s.outstanding.eraseP (fun e => e = (d, id))).filter
            (fun e => e.1 = d)).length ≤ 1
          omega
        · intro hne0
          exact absurd h0 hne0
      · have hne' : ¬ dir = d := fun hdd => hd hdd.symm
        have hsame : ((s.outstanding.eraseP (fun e => e = (dir, id))).filter
            (fun e => e.1 = d)) = s.outstanding.filter (fun e => e.1 = d) := by
          refine filter_eraseP_of_not _ _ _ ?_
          intro x hx
          simp only [decide_eq_true_eq] at hx
          subst hx
          simp [hne']
        refine ⟨?_, ?_⟩
        · show ((s.outstanding.eraseP (fun e => e = (dir, id))).filter
            (fun e => e.1 = d)).length ≤ 1
          rw [hsame]
          exact (h d).1
        · intro hne0
          have hne0' : (s.outstanding.filter (fun e => e.1 = d)).length ≠ 0 := by
            have hne1 : ((s.outstanding.eraseP (fun e => e = (dir, id))).filter
                (fun e => e.1 = d)).length ≠ 0 := hne0
            rw [hsame] at hne1
            exact hne1
          show (mapLookup (mapDelete s.loadInFlightByDirectory dir) d).isSome = true
          rw [mapLookup_mapDelete_ne s.loadInFlightByDirectory dir d hd]
          exact (h d).2 hne0'
    · rw [completeLoad, if_neg hmem]
      exact h

/-- The single-flight invariant holds after any refresh-free event sequence. -/
theorem treeInv_foldl (events : List TreeEvent) :
    ∀ s, treeInv s → TreeEvent.refreshAll ∉ events →
      treeInv (events.foldl stepTree s) := by
  induction events with
  | nil => intro s hs _; exact hs
  | cons e es ih =>
    intro s hs h
    have he : e ≠ TreeEvent.refreshAll := by
      intro heq
      exact h (by rw [heq]; exact List.mem_cons_self _ _)
    have hes : TreeEvent.refreshAll ∉ es := fun hm => h (List.mem_cons_of_mem e hm)
    exact ih (stepTree s e) (treeInv_step s e hs he) hes

/-- Claim C7 (counterexample): `refresh()` clears `loadInFlightByDirectory`
without cancelling the outstanding listing request, so a `getChildren` on the
same directory after a refresh issues a second listing request while the
first is still outstanding — two outstanding listing requests for one path,
refuting the claim's universally quantified bound. -/
theorem duplicate_listing_after_refresh :
    outstandingFor (runTree [TreeEvent.getChildren "/plugins", TreeEvent.refreshAll,
      TreeEvent.getChildren "/plugins"]) "/plugins" = 2
    ∧ ¬ (∀ (events : List TreeEvent) (d : String),
          outstandingFor (runTree events) d ≤ 1) := by
  refine ⟨by decide, ?_⟩
  intro hall
  have h := hall [TreeEvent.getChildren "/plugins", TreeEvent.refreshAll,
      TreeEvent.getChildren "/plugins"] "/plugins"
  have h2 : outstandingFor (runTree [TreeEvent.getChildren "/plugins",
      TreeEvent.refreshAll, TreeEvent.getChildren "/plugins"]) "/plugins" = 2 := by decide
  omega

/-- Claim C7 (amended): in any event sequence that contains no `refresh()`,
at most one listing request per directory is outstanding at any time — a
`getChildren`-triggered load started while a load for the same path is in
flight awaits the existing one.  Interleavings with `refresh()` break the
bound (see the counterexample), because `refresh()` forgets, but does not
cancel, in-flight loads. -/
theorem singleFlight_without_refresh (events : List TreeEvent)
    (h : TreeEvent.refreshAll ∉ events) (d : String) :
    outstandingFor (runTree events) d ≤ 1 := by
  have hinit : treeInv initTreeState := by
    intro d
    exact ⟨by simp [outstandingFor, initTreeState], fun hne0 => absurd rfl hne0⟩
  exact (treeInv_foldl events initTreeState hinit h d).1

/-- Witness for `singleFlight_without_refresh`: two consecutive
`getChildren` calls on the same directory leave at most one outstanding
request. -/
theorem singleFlight_without_refresh_witness :
    outstandingFor (runTree [TreeEvent.getChildren "/plugins",
      TreeEvent.getChildren "/plugins"]) "/plugins" ≤ 1 :=
  singleFlight_without_refresh
    [TreeEvent.getChildren "/plugins", TreeEvent.getChildren "/plugins"]
    (by decide) "/plugins"

end Voidium
